import Mathlib

/-!
Shallow embedding of the `knowledge-graph` OpenCode plugin
(`knowledge-graph/index.js`): an entity/relationship/session store backed by
SQLite, together with the tool operations (`knowledge_search`,
`knowledge_add_entity`, `knowledge_connect`, `knowledge_graph`,
`knowledge_sessions`, `knowledge_summarize_session`) and the host lifecycle
handlers that the claims refer to.

Modelling conventions:
* SQL tables become Lean lists of row structures held in a `DB` value, rows in
  insertion (rowid) order; `SELECT ... ORDER BY` becomes an insertion sort.
* `datetime('now')` timestamps become `Nat` ticks supplied by the caller.
* `uuidv4()` identifiers are supplied by the caller as `freshId` arguments.
* SQLite `LIKE` (used with `%query%` patterns by `knowledge_search`) is
  modelled faithfully including its `%`/`_` wildcards and ASCII-only case
  insensitivity.  The `knowledge_connect` lookup binds a `%identifier%`
  pattern to a plain `=` comparison in the source; the model reproduces that
  equality comparison exactly.
* `JSON.parse` / `JSON.stringify` are modelled by an executable JSON grammar
  parser (fuelled recursive descent) and a string-escaping serializer.
* Throwing JS code is modelled with `Except String`; handlers that swallow
  exceptions return `Option` results.
-/

namespace KG

/-- ASCII-only lower-casing, as SQLite applies inside `LIKE` comparisons. -/
def asciiLower (c : Char) : Char :=
  if 65 ≤ c.toNat ∧ c.toNat ≤ 90 then Char.ofNat (c.toNat + 32) else c

/-- Fuelled core of SQLite `LIKE` pattern matching: `%` matches any sequence,
`_` any single character, other characters compare ASCII-case-insensitively.
The source never uses an `ESCAPE` clause.  Each step consumes a pattern
character or a subject character, so `p.length + s.length + 1` fuel always
suffices. -/
def likeMatchF : Nat → List Char → List Char → Bool
  | 0, _, _ => false
  | _ + 1, [], s => s.isEmpty
  | fuel + 1, p :: ps, s =>
    if p = '%' then
      likeMatchF fuel ps s ||
        (match s with
         | [] => false
         | _ :: s' => likeMatchF fuel (p :: ps) s')
    else
      match s with
      | [] => false
      | c :: s' =>
        (if p = '_' then true else asciiLower p == asciiLower c) &&
          likeMatchF fuel ps s'

/-- SQLite `LIKE` pattern matching (adequately fuelled). -/
def likeMatch (p s : List Char) : Bool :=
  likeMatchF (p.length + s.length + 1) p s

/-- `leadsWith q s` : `q` is an initial run of `s` (exact character equality). -/
def leadsWith : List Char → List Char → Bool
  | [], _ => true
  | _ :: _, [] => false
  | a :: as, b :: bs => (a == b) && leadsWith as bs

/-- `hasSub q s` : `q` occurs contiguously somewhere inside `s`. -/
def hasSub (q : List Char) : List Char → Bool
  | [] => leadsWith q []
  | c :: s => leadsWith q (c :: s) || hasSub q s

/-- Case-insensitive (ASCII) substring test on strings. -/
def ciSubstr (q s : String) : Bool :=
  hasSub (q.data.map asciiLower) (s.data.map asciiLower)

/-- The query is free of the SQL `LIKE` wildcard characters `%` and `_`. -/
def wcFree (q : String) : Bool :=
  q.data.all fun c => !(c == '%') && !(c == '_')

/-! ## Data model: the four SQLite tables (rows in insertion order) -/

/-- A row of the `entities` table. -/
structure Entity where
  id : String
  type : String
  name : String
  content : Option String
  metadata : Option String
  project_path : String
  created_at : Nat
  updated_at : Nat
deriving Repr, DecidableEq

/-- A row of the `relationships` table. -/
structure Relationship where
  id : String
  source_id : String
  target_id : String
  relationship_type : String
  metadata : Option String
  project_path : String
  created_at : Nat
deriving Repr, DecidableEq

/-- A row of the `sessions` table. -/
structure Session where
  id : String
  project_path : String
  start_time : Nat
  end_time : Option Nat
  summary : Option String
  key_decisions : Option String
  files_modified : Option String
  context : Option String
deriving Repr, DecidableEq

/-- The durable store (the `queries` table plays no part in the claims). -/
structure DB where
  entities : List Entity
  relationships : List Relationship
  sessions : List Session
deriving Repr, DecidableEq

/-- The empty, freshly initialized store. -/
def db0 : DB := { entities := [], relationships := [], sessions := [] }

/-! ## JSON values, `JSON.parse` and `JSON.stringify` string escaping -/

/-- JSON values as produced by `JSON.parse`.  Number lexemes are kept as text
(their numeric value plays no part in any claim). -/
inductive Json where
  | null : Json
  | bool (b : Bool) : Json
  | num (lexeme : String) : Json
  | str (s : String) : Json
  | arr (elts : List Json) : Json
  | obj (fields : List (String × Json)) : Json
deriving Repr

/-- JSON insignificant whitespace. -/
def isWS (c : Char) : Bool := c == ' ' || c == '\t' || c == '\n' || c == '\r'

def skipWS (s : List Char) : List Char := s.dropWhile isWS

def hexVal (c : Char) : Option Nat :=
  if 48 ≤ c.toNat ∧ c.toNat ≤ 57 then some (c.toNat - 48)
  else if 97 ≤ c.toNat ∧ c.toNat ≤ 102 then some (c.toNat - 87)
  else if 65 ≤ c.toNat ∧ c.toNat ≤ 70 then some (c.toNat - 55)
  else none

/-- Decode one JSON string escape (the character after a backslash). -/
def decodeEscape (e : Char) (s : List Char) : Option (Char × List Char) :=
  if e == '"' then some ('"', s)
  else if e == '\\' then some ('\\', s)
  else if e == '/' then some ('/', s)
  else if e == 'b' then some ('\x08', s)
  else if e == 'f' then some ('\x0c', s)
  else if e == 'n' then some ('\n', s)
  else if e == 'r' then some ('\r', s)
  else if e == 't' then some ('\t', s)
  else if e == 'u' then
    match s with
    | h1 :: h2 :: h3 :: h4 :: s' =>
      match hexVal h1, hexVal h2, hexVal h3, hexVal h4 with
      | some a, some b, some c, some d =>
        some (Char.ofNat (((a * 16 + b) * 16 + c) * 16 + d), s')
      | _, _, _, _ => none
    | _ => none
  else none

/-- Parse the body of a JSON string, the opening quote already consumed.
Returns the decoded characters and the input after the closing quote. -/
def parseStrChars : Nat → List Char → Option (List Char × List Char)
  | 0, _ => none
  | _ + 1, [] => none
  | fuel + 1, c :: s =>
    if c == '"' then some ([], s)
    else if c == '\\' then
      match s with
      | [] => none
      | e :: s' =>
        match decodeEscape e s' with
        | some (ch, rest) =>
          match parseStrChars fuel rest with
          | some (cs, r2) => some (ch :: cs, r2)
          | none => none
        | none => none
    else if c.toNat < 32 then none
    else
      match parseStrChars fuel s with
      | some (cs, r2) => some (c :: cs, r2)
      | none => none

/-- Attach an optional exponent part and finish a number lexeme. -/
def finishNum (lex : List Char) (s : List Char) : Option (Json × List Char) :=
  match s with
  | e :: r =>
    if e == 'e' || e == 'E' then
      let (sgn, r1) : List Char × List Char :=
        match r with
        | '+' :: r' => (['+'], r')
        | '-' :: r' => (['-'], r')
        | _ => ([], r)
      let es := r1.takeWhile Char.isDigit
      let s2 := r1.dropWhile Char.isDigit
      if es = [] then none else some (.num ⟨lex ++ e :: (sgn ++ es)⟩, s2)
    else some (.num ⟨lex⟩, s)
  | [] => some (.num ⟨lex⟩, [])

/-- Parse a JSON number (strict grammar: no leading zeros, no bare `1.`). -/
def parseNum (s : List Char) : Option (Json × List Char) :=
  let (sign, s1) : List Char × List Char :=
    match s with
    | '-' :: r => (['-'], r)
    | _ => ([], s)
  let ds := s1.takeWhile Char.isDigit
  let s2 := s1.dropWhile Char.isDigit
  if ds = [] then none
  else if 2 ≤ ds.length ∧ ds.head? = some '0' then none
  else
    match s2 with
    | '.' :: r =>
      let fs := r.takeWhile Char.isDigit
      let s3 := r.dropWhile Char.isDigit
      if fs = [] then none else finishNum (sign ++ ds ++ '.' :: fs) s3
    | _ => finishNum (sign ++ ds) s2

mutual

/-- Parse one JSON value (leading whitespace already skipped). -/
def parseValue : Nat → List Char → Option (Json × List Char)
  | 0, _ => none
  | fuel + 1, s =>
    match s with
    | [] => none
    | c :: rest =>
      if c == '"' then
        match parseStrChars (rest.length + 1) rest with
        | some (cs, r) => some (.str ⟨cs⟩, r)
        | none => none
      else if c == '[' then
        match skipWS rest with
        | ']' :: r => some (.arr [], r)
        | r =>
          match parseElems fuel r with
          | some (vs, r2) => some (.arr vs, r2)
          | none => none
      else if c == '\x7b' then
        match skipWS rest with
        | '\x7d' :: r => some (.obj [], r)
        | r =>
          match parseMembers fuel r with
          | some (ms, r2) => some (.obj ms, r2)
          | none => none
      else if c == 't' then
        match rest with
        | 'r' :: 'u' :: 'e' :: r => some (.bool true, r)
        | _ => none
      else if c == 'f' then
        match rest with
        | 'a' :: 'l' :: 's' :: 'e' :: r => some (.bool false, r)
        | _ => none
      else if c == 'n' then
        match rest with
        | 'u' :: 'l' :: 'l' :: r => some (.null, r)
        | _ => none
      else if c == '-' || c.isDigit then parseNum (c :: rest)
      else none

/-- Parse the elements of a non-empty JSON array. -/
def parseElems : Nat → List Char → Option (List Json × List Char)
  | 0, _ => none
  | fuel + 1, s =>
    match parseValue fuel (skipWS s) with
    | none => none
    | some (v, r) =>
      match skipWS r with
      | ',' :: r' =>
        match parseElems fuel r' with
        | some (vs, r2) => some (v :: vs, r2)
        | none => none
      | ']' :: r' => some ([v], r')
      | _ => none

/-- Parse the members of a non-empty JSON object. -/
def parseMembers : Nat → List Char → Option (List (String × Json) × List Char)
  | 0, _ => none
  | fuel + 1, s =>
    match skipWS s with
    | '"' :: r =>
      match parseStrChars (r.length + 1) r with
      | none => none
      | some (key, r1) =>
        match skipWS r1 with
        | ':' :: r2 =>
          match parseValue fuel (skipWS r2) with
          | none => none
          | some (v, r3) =>
            match skipWS r3 with
            | ',' :: r4 =>
              match parseMembers fuel r4 with
              | some (ms, r5) => some ((⟨key⟩, v) :: ms, r5)
              | none => none
            | '\x7d' :: r4 => some ([(⟨key⟩, v)], r4)
            | _ => none
        | _ => none
    | _ => none

end

/-- `JSON.parse`: the whole input must be one JSON value plus whitespace. -/
def jsonParse (s : String) : Option Json :=
  match parseValue (s.length + 1) (skipWS s.data) with
  | some (v, rest) => if (skipWS rest).isEmpty then some v else none
  | none => none

def hexDigit (n : Nat) : Char :=
  if n < 10 then Char.ofNat (48 + n) else Char.ofNat (87 + n)

/-- `JSON.stringify` escaping of one character inside a string literal. -/
def escChar (c : Char) : List Char :=
  if c == '"' then ['\\', '"']
  else if c == '\\' then ['\\', '\\']
  else if c == '\n' then ['\\', 'n']
  else if c == '\r' then ['\\', 'r']
  else if c == '\t' then ['\\', 't']
  else if c == '\x08' then ['\\', 'b']
  else if c == '\x0c' then ['\\', 'f']
  else if c.toNat < 32 then ['\\', 'u', '0', '0', hexDigit (c.toNat / 16), hexDigit (c.toNat % 16)]
  else [c]

def jsonEscape (s : String) : String := ⟨(s.data.map escChar).flatten⟩

/-- `JSON.stringify({ summary, decisions })` as built by
`knowledge_summarize_session` for the session `context` column. -/
def contextJson (summary decisions : String) : String :=
  "\x7b\"summary\":\"" ++ jsonEscape summary ++ "\",\"decisions\":\"" ++
    jsonEscape decisions ++ "\"\x7d"

/-- JS property access `v[key]` on a parsed JSON value: `none` is `undefined`
(non-objects have no own properties; duplicate keys — last one wins). -/
def jsGet (v : Json) (key : String) : Option Json :=
  match v with
  | .obj fields => (fields.reverse.find? fun kv => kv.1 == key).map (·.2)
  | _ => none

/-! ## Tool operations -/

/-- `ORDER BY updated_at DESC` comparison on entity rows. -/
def entityUpdGe (a b : Entity) : Prop := b.updated_at ≤ a.updated_at

instance : DecidableRel entityUpdGe := fun a b => Nat.decLe b.updated_at a.updated_at

instance : IsTotal Entity entityUpdGe :=
  ⟨fun a b => Nat.le_total b.updated_at a.updated_at⟩

instance : IsTrans Entity entityUpdGe :=
  ⟨fun _ _ _ h1 h2 => Nat.le_trans h2 h1⟩

/-- `ORDER BY start_time DESC` comparison on session rows. -/
def sessionStartGe (a b : Session) : Prop := b.start_time ≤ a.start_time

instance : DecidableRel sessionStartGe := fun a b => Nat.decLe b.start_time a.start_time

instance : IsTotal Session sessionStartGe :=
  ⟨fun a b => Nat.le_total b.start_time a.start_time⟩

instance : IsTrans Session sessionStartGe :=
  ⟨fun _ _ _ h1 h2 => Nat.le_trans h2 h1⟩

/-- One row of the `knowledge_search` response payload.  Note: the payload
carries `id`, `type`, `name`, truncated `content` and `updated` only. -/
structure SearchRow where
  id : String
  type : String
  name : String
  content : Option String
  updated : Nat
deriving Repr, DecidableEq

/-- The `knowledge_search` response. -/
structure SearchResult where
  query : String
  count : Nat
  results : List SearchRow
deriving Repr, DecidableEq

/-- The SQL `WHERE` clause of `knowledge_search`:
`project_path = ? AND (name LIKE '%q%' OR content LIKE '%q%') [AND type = ?]`.
A `NULL` content never satisfies `content LIKE`. -/
def searchPred (projPath query : String) (type? : Option String) (e : Entity) : Bool :=
  (e.project_path == projPath) &&
  (likeMatch ("%" ++ query ++ "%").data e.name.data ||
    (match e.content with
     | none => false
     | some c => likeMatch ("%" ++ query ++ "%").data c.data)) &&
  (match type? with
   | none => true
   | some t => e.type == t)

/-- `knowledge_search`: filter, order by `updated_at DESC`, `LIMIT`, and map
each row to the payload shape (content truncated via `substring(0, 500)`). -/
def knowledge_search (db : DB) (projPath query : String) (type? : Option String)
    (limit : Nat) : SearchResult :=
  let rows := (List.insertionSort entityUpdGe
    (db.entities.filter (searchPred projPath query type?))).take limit
  { query := query
    count := rows.length
    results := rows.map fun r =>
      { id := r.id
        type := r.type
        name := r.name
        content := r.content.map fun c => ⟨c.data.take 500⟩
        updated := r.updated_at } }

/-- The `knowledge_add_entity` response. -/
structure AddEntityResult where
  success : Bool
  entityId : String
  name : String
  type : String
deriving Repr, DecidableEq

/-- `knowledge_add_entity`: always inserts a fresh row; the JS `metadata || null`
turns an absent or empty metadata string into SQL `NULL`. -/
def knowledge_add_entity (db : DB) (projPath freshId : String) (now : Nat)
    (name type content : String) (metadata : Option String) : DB × AddEntityResult :=
  let storedMeta : Option String :=
    match metadata with
    | some m => if m = "" then none else some m
    | none => none
  let e : Entity :=
    { id := freshId, type := type, name := name, content := some content
      metadata := storedMeta, project_path := projPath
      created_at := now, updated_at := now }
  ({ db with entities := db.entities ++ [e] },
   { success := true, entityId := freshId, name := name, type := type })

/-- The entity lookup used by `knowledge_connect`:
`SELECT id FROM entities WHERE project_path = ? AND (id = ? OR name = ?)` with
the name parameter bound to the literal string `%identifier%` — a plain
equality comparison (the SQL uses `=`, not `LIKE`, so the `%` wildcards are
compared as ordinary characters). -/
def resolveEntity (db : DB) (projPath ident : String) : Option Entity :=
  db.entities.find? fun e =>
    e.project_path == projPath && (e.id == ident || e.name == "%" ++ ident ++ "%")

/-- The `knowledge_connect` success response. -/
structure ConnectResult where
  success : Bool
  relationshipId : String
  from_ : String
  to_ : String
  type : String
deriving Repr, DecidableEq

/-- `knowledge_connect`: resolve both identifiers; on failure throw an error
naming the unresolved side(s) with the store untouched; on success insert a
directed relationship row. -/
def knowledge_connect (db : DB) (projPath freshId : String) (now : Nat)
    (source target relationship : String) : DB × Except String ConnectResult :=
  match resolveEntity db projPath source, resolveEntity db projPath target with
  | some se, some te =>
    let r : Relationship :=
      { id := freshId, source_id := se.id, target_id := te.id
        relationship_type := relationship, metadata := none
        project_path := projPath, created_at := now }
    ({ db with relationships := db.relationships ++ [r] },
     .ok { success := true, relationshipId := freshId, from_ := source
           to_ := target, type := relationship })
  | so, ta =>
    (db, .error ("Could not find entities: " ++
      (if so.isNone then source else "") ++ " " ++
      (if ta.isNone then target else "")))

/-- A node of the `knowledge_graph` payload. -/
structure GraphNode where
  id : String
  label : String
  type : String
  metadata : Option String
deriving Repr, DecidableEq

/-- An edge of the `knowledge_graph` payload. -/
structure GraphEdge where
  id : String
  source : String
  target : String
  type : String
deriving Repr, DecidableEq

/-- The `knowledge_graph` response. -/
structure GraphResult where
  nodes : List GraphNode
  edges : List GraphEdge
deriving Repr, DecidableEq

/-- `JOIN entities ON id`: first row with the given primary key. -/
def findById (db : DB) (eid : String) : Option Entity :=
  db.entities.find? fun e => e.id == eid

/-- `knowledge_graph`: nodes are the project's entities (optionally filtered
by `entityType`); edges are ALL the project's relationships joined to their
endpoint names — the edge query carries no type filter.  The `depth` argument
of the tool is accepted but never used by the source, so it is omitted. -/
def knowledge_graph (db : DB) (projPath : String) (entityType : Option String) :
    GraphResult :=
  let ents := db.entities.filter fun e =>
    e.project_path == projPath &&
      (match entityType with
       | none => true
       | some t => e.type == t)
  let rels := db.relationships.filter fun r => r.project_path == projPath
  { nodes := ents.map fun e =>
      { id := e.id, label := e.name, type := e.type, metadata := e.metadata }
    edges := rels.filterMap fun r =>
      match findById db r.source_id, findById db r.target_id with
      | some s, some t =>
        some { id := r.id, source := s.name, target := t.name
               type := r.relationship_type }
      | _, _ => none }

/-- One row of the `knowledge_sessions` payload; `filesModified` is the value
of `JSON.parse(files_modified)` (or the empty JS array for a falsy column). -/
structure SessionRow where
  id : String
  startTime : Nat
  endTime : Option Nat
  summary : Option String
  keyDecisions : Option String
  filesModified : Json
deriving Repr

/-- The `knowledge_sessions` response. -/
structure SessionsResult where
  count : Nat
  sessions : List SessionRow
deriving Repr

/-- The window of sessions `knowledge_sessions` reads:
`WHERE project_path = ? ORDER BY start_time DESC LIMIT ?`. -/
def sessionsWindow (db : DB) (projPath : String) (limit : Nat) : List Session :=
  (List.insertionSort sessionStartGe
    (db.sessions.filter fun s => s.project_path == projPath)).take limit

/-- Map one session row to the payload shape;
`s.files_modified ? JSON.parse(s.files_modified) : []` throws on a truthy
string that is not valid JSON. -/
def sessionRowOf (s : Session) : Except String SessionRow :=
  match s.files_modified with
  | none => .ok { id := s.id, startTime := s.start_time, endTime := s.end_time
                  summary := s.summary, keyDecisions := s.key_decisions
                  filesModified := .arr [] }
  | some f =>
    if f = "" then
      .ok { id := s.id, startTime := s.start_time, endTime := s.end_time
            summary := s.summary, keyDecisions := s.key_decisions
            filesModified := .arr [] }
    else
      match jsonParse f with
      | some v =>
        .ok { id := s.id, startTime := s.start_time, endTime := s.end_time
              summary := s.summary, keyDecisions := s.key_decisions
              filesModified := v }
      | none => .error "SyntaxError: Unexpected token in JSON"

/-- JS `Array.prototype.map` over a throwing callback: the first exception
aborts the whole call. -/
def mapE {α β : Type} : List α → (α → Except String β) → Except String (List β)
  | [], _ => .ok []
  | a :: l', f =>
    match f a with
    | .error e => .error e
    | .ok b =>
      match mapE l' f with
      | .error e => .error e
      | .ok bs => .ok (b :: bs)

/-- `knowledge_sessions`: read the window and map it to payload rows; an
invalid `files_modified` JSON string makes the whole call throw. -/
def knowledge_sessions (db : DB) (projPath : String) (limit : Nat) :
    Except String SessionsResult :=
  match mapE (sessionsWindow db projPath limit) sessionRowOf with
  | .ok rows => .ok { count := rows.length, sessions := rows }
  | .error e => .error e

/-- The `knowledge_summarize_session` response. -/
structure SummarizeResult where
  success : Bool
  sessionId : String
deriving Repr, DecidableEq

/-- `knowledge_summarize_session`: mint a session id if none is current, then
`INSERT ... ON CONFLICT(id) DO UPDATE SET summary, key_decisions,
files_modified` — on conflict the `context`, `project_path` and `start_time`
columns are left as they are.  Returns the new store, the new ambient session
id and the payload. -/
def knowledge_summarize_session (db : DB) (cur : Option String)
    (freshId : String) (now : Nat) (projPath summary decisions files : String) :
    DB × Option String × SummarizeResult :=
  let sid := cur.getD freshId
  let db' :=
    if db.sessions.any fun s => s.id == sid then
      { db with sessions := db.sessions.map fun s =>
          if s.id == sid then
            { s with summary := some summary, key_decisions := some decisions
                     files_modified := some files }
          else s }
    else
      { db with sessions := db.sessions ++
          [{ id := sid, project_path := projPath, start_time := now
             end_time := none, summary := some summary
             key_decisions := some decisions, files_modified := some files
             context := some (contextJson summary decisions) }] }
  (db', some sid, { success := true, sessionId := sid })

/-! ## Lifecycle handlers -/

/-- The `read` branch of the `tool.execute.after` handler: classify by the
raw file path's extension, look up `(project_path, normalizedPath)`; insert
the first 1000 characters of the read result if absent, otherwise do nothing.
`normalizedPath` is `path.normalize(filePath)`, applied by the host-facing
wrapper before this logic runs. -/
def fileReadCapture (db : DB) (projPath filePath normalizedPath result freshId : String)
    (now : Nat) : DB :=
  match db.entities.find? fun e =>
      e.project_path == projPath && e.name == normalizedPath with
  | some _ => db
  | none =>
    let ty :=
      if filePath.endsWith ".ts" || filePath.endsWith ".tsx" then "typescript"
      else if filePath.endsWith ".js" || filePath.endsWith ".jsx" then "javascript"
      else if filePath.endsWith ".json" then "config"
      else "file"
    { db with entities := db.entities ++
        [{ id := freshId, type := ty, name := normalizedPath
           content := some ⟨result.data.take 1000⟩, metadata := none
           project_path := projPath, created_at := now, updated_at := now }] }

/-- What the `session.deleted` handler writes to `output`. -/
structure SessionDeletedOutput where
  summary : Option Json
  decisions : Option Json
deriving Repr

/-- The `session.deleted` handler: stamp `end_time` on the current session
row, then try to surface the parsed `context` blob — a missing row, falsy
context, a JSON parse failure or a `null` context (whose property access
throws) are all swallowed and leave the output unset. -/
def sessionDeleted (db : DB) (cur : Option String) (now : Nat) :
    DB × Option SessionDeletedOutput :=
  match cur with
  | none => (db, none)
  | some sid =>
    let db' := { db with sessions := db.sessions.map fun s =>
      if s.id == sid then { s with end_time := some now } else s }
    let out : Option SessionDeletedOutput :=
      match db'.sessions.find? fun s => s.id == sid with
      | none => none
      | some s =>
        match s.context with
        | none => none
        | some ctx =>
          if ctx = "" then none
          else
            match jsonParse ctx with
            | none => none
            | some .null => none
            | some v => some { summary := jsGet v "summary", decisions := jsGet v "decisions" }
    (db', out)

/-! ## Claims -/

/-- C1: the spec's example scenario — `addEntity("UserService")`,
`addEntity("Database")`, then `connect("UserService", "Database",
"depends_on")` followed by `exportGraph()` — does NOT behave as claimed on
the source: the connect lookup compares `name` for equality against the
literal pattern string `%UserService%` (SQL `=` instead of `LIKE`), so both
identifiers fail to resolve, `connect` throws
`Could not find entities: UserService Database`, no relationship row is
inserted, and the subsequent export returns 2 nodes and 0 edges. -/
theorem C1_connect_scenario_rejected :
    (knowledge_connect
      ((knowledge_add_entity
        ((knowledge_add_entity db0 "p" "id-1" 1 "UserService" "component"
          "Handles auth" none).1)
        "p" "id-2" 2 "Database" "component" "Postgres store" none).1)
      "p" "rel-1" 3 "UserService" "Database" "depends_on").2 =
      .error "Could not find entities: UserService Database" ∧
    (knowledge_connect
      ((knowledge_add_entity
        ((knowledge_add_entity db0 "p" "id-1" 1 "UserService" "component"
          "Handles auth" none).1)
        "p" "id-2" 2 "Database" "component" "Postgres store" none).1)
      "p" "rel-1" 3 "UserService" "Database" "depends_on").1 =
      ((knowledge_add_entity
        ((knowledge_add_entity db0 "p" "id-1" 1 "UserService" "component"
          "Handles auth" none).1)
        "p" "id-2" 2 "Database" "component" "Postgres store" none).1) ∧
    (knowledge_graph
      ((knowledge_add_entity
        ((knowledge_add_entity db0 "p" "id-1" 1 "UserService" "component"
          "Handles auth" none).1)
        "p" "id-2" 2 "Database" "component" "Postgres store" none).1)
      "p" none).nodes.length = 2 ∧
    (knowledge_graph
      ((knowledge_add_entity
        ((knowledge_add_entity db0 "p" "id-1" 1 "UserService" "component"
          "Handles auth" none).1)
        "p" "id-2" 2 "Database" "component" "Postgres store" none).1)
      "p" none).edges = [] :=
  ⟨rfl, rfl, rfl, rfl⟩

/-- C2: name-based resolution in `connect` is broken in the source: with one
entity named `UserService` in scope, neither the proper substring `User` nor
even the exact name `UserService` resolves (the SQL compares
`name = '%identifier%'` literally instead of `name LIKE '%identifier%'`);
only the exact id resolves. -/
theorem C2_resolve_substring_rejected :
    resolveEntity
      ((knowledge_add_entity db0 "p" "e1" 1 "UserService" "component"
        "Handles auth" none).1) "p" "User" = none ∧
    resolveEntity
      ((knowledge_add_entity db0 "p" "e1" 1 "UserService" "component"
        "Handles auth" none).1) "p" "UserService" = none ∧
    (resolveEntity
      ((knowledge_add_entity db0 "p" "e1" 1 "UserService" "component"
        "Handles auth" none).1) "p" "e1").isSome = true :=
  ⟨rfl, rfl, rfl⟩

/-- C7: whenever either side of `connect` fails to resolve, the call throws a
not-found error whose message names exactly the unresolved identifier(s)
(the resolved side contributes an empty string), and the store is returned
unchanged — no relationship row is inserted. -/
theorem C7_connect_not_found (db : DB) (p freshId src tgt rel : String) (now : Nat)
    (h : resolveEntity db p src = none ∨ resolveEntity db p tgt = none) :
    (knowledge_connect db p freshId now src tgt rel).1 = db ∧
    (knowledge_connect db p freshId now src tgt rel).2 =
      .error ("Could not find entities: " ++
        (if resolveEntity db p src = none then src else "") ++ " " ++
        (if resolveEntity db p tgt = none then tgt else "")) := by
  rcases hs : resolveEntity db p src with _ | se <;>
    rcases ht : resolveEntity db p tgt with _ | te <;>
      simp [knowledge_connect, hs, ht] at h ⊢

/-- Witness for C7 at a concrete input: in the empty store neither `A` nor
`B` resolves, the connect call leaves the store unchanged and throws the
message naming both. -/
theorem C7_connect_not_found_witness :
    (knowledge_connect db0 "p" "r1" 0 "A" "B" "depends_on").1 = db0 ∧
    (knowledge_connect db0 "p" "r1" 0 "A" "B" "depends_on").2 =
      .error "Could not find entities: A B" := by
  have h := C7_connect_not_found db0 "p" "r1" "A" "B" "depends_on" 0 (Or.inl rfl)
  refine ⟨h.1, ?_⟩
  rw [h.2]
  rfl

/-- A concrete auto-captured file entity, last touched at tick 5. -/
def e3 : Entity :=
  { id := "e-3", type := "typescript", name := "src/a.ts", content := some "body"
    metadata := none, project_path := "p", created_at := 5, updated_at := 5 }

/-- A store holding just `e3`. -/
def cdb3 : DB := { entities := [e3], relationships := [], sessions := [] }

/-- C3 counterexample: a file-read auto-capture event at tick 9 whose
normalized path already names `e3` leaves the store COMPLETELY unchanged —
the existing row's `updated_at` stays 5, it is not refreshed to the event
time (the `read` branch has no update arm, unlike the `file.edited` handler). -/
theorem C3_read_capture_no_touch_cex :
    fileReadCapture cdb3 "p" "src/a.ts" "src/a.ts" "fresh body" "id-9" 9 = cdb3 ∧
    cdb3.entities.map Entity.updated_at = [5] :=
  ⟨rfl, rfl⟩

/-- C3 (amended): a file-read auto-capture event whose normalized path
already names an existing entity in the project scope creates no duplicate
row and leaves the store unchanged (in particular `updated_at` is NOT
refreshed). -/
theorem C3_read_capture_existing_noop (db : DB) (p fp np res fid : String) (now : Nat)
    (h : ∃ e ∈ db.entities, e.project_path = p ∧ e.name = np) :
    fileReadCapture db p fp np res fid now = db := by
  obtain ⟨e, he, hp, hn⟩ := h
  have hs : (db.entities.find? fun e => e.project_path == p && e.name == np).isSome := by
    rw [List.find?_isSome]
    exact ⟨e, he, by simp [hp, hn]⟩
  obtain ⟨e', hf⟩ := Option.isSome_iff_exists.mp hs
  simp [fileReadCapture, hf]

/-- Witness for C3 (amended) at a concrete input. -/
theorem C3_read_capture_existing_noop_witness :
    fileReadCapture cdb3 "p" "src/a.ts" "src/a.ts" "other" "id-7" 9 = cdb3 :=
  C3_read_capture_existing_noop cdb3 "p" "src/a.ts" "src/a.ts" "other" "id-7" 9
    ⟨e3, List.mem_singleton_self e3, rfl, rfl⟩

/-- A metadata JSON string for the C4 scenario. -/
def mstr : String := "\x7b\"layer\": \"service\"\x7d"

/-- A store holding one entity created with metadata `mstr`. -/
def cdb4 : DB :=
  (knowledge_add_entity db0 "p" "e-4" 7 "UserService" "component" "Handles auth"
    (some mstr)).1

/-- C4 counterexample: the `knowledge_search` result payload carries only
`id`, `type`, `name`, truncated `content` and `updated` — the metadata
string stored for the entity appears in NO field of the returned row, so a
search does not return the metadata string at all (the column itself is
stored untouched). -/
theorem C4_search_payload_omits_metadata_cex :
    (knowledge_search cdb4 "p" "UserService" none 10).results =
      [{ id := "e-4", type := "component", name := "UserService"
         content := some "Handles auth", updated := 7 }] ∧
    cdb4.entities.map Entity.metadata = [some mstr] ∧
    "e-4" ≠ mstr ∧ "component" ≠ mstr ∧ "UserService" ≠ mstr ∧
    some "Handles auth" ≠ some mstr := by
  refine ⟨rfl, rfl, ?_, ?_, ?_, ?_⟩ <;> decide

/-- C4 (amended): the store treats metadata as opaque text and never
re-serializes it — an entity created with a non-empty metadata string keeps
the identical string in its row, and `knowledge_graph` (whose nodes do carry
metadata) returns it unmodified; `knowledge_search` payloads omit metadata
entirely. -/
theorem C4_metadata_opaque (db : DB) (p fid name ty content m : String) (now : Nat)
    (hm : m ≠ "") :
    ((knowledge_add_entity db p fid now name ty content (some m)).1).entities.map
        Entity.metadata =
      db.entities.map Entity.metadata ++ [some m] ∧
    (knowledge_graph ((knowledge_add_entity db p fid now name ty content (some m)).1)
        p none).nodes =
      (knowledge_graph db p none).nodes ++
        [{ id := fid, label := name, type := ty, metadata := some m }] := by
  constructor
  · simp [knowledge_add_entity, hm]
  · simp [knowledge_add_entity, knowledge_graph, hm, List.filter_append,
      List.map_append]

/-- Witness for C4 (amended) at a concrete input. -/
theorem C4_metadata_opaque_witness :
    ((knowledge_add_entity db0 "p" "e-4" 7 "UserService" "component" "Handles auth"
        (some mstr)).1).entities.map Entity.metadata = [some mstr] ∧
    (knowledge_graph ((knowledge_add_entity db0 "p" "e-4" 7 "UserService" "component"
        "Handles auth" (some mstr)).1) "p" none).nodes =
      [{ id := "e-4", label := "UserService", type := "component"
         metadata := some mstr }] := by
  have h := C4_metadata_opaque db0 "p" "e-4" "UserService" "component" "Handles auth"
    mstr 7 (by decide)
  simpa [db0, knowledge_graph] using h

/-- A mapped function that preserves a filter predicate preserves the
filtered length. -/
theorem filter_length_map_invariant {α : Type} (l : List α) (f : α → α)
    (q : α → Bool) (h : ∀ a, q (f a) = q a) :
    ((l.map f).filter q).length = (l.filter q).length := by
  induction l with
  | nil => rfl
  | cons a t ih =>
    simp only [List.map_cons, List.filter_cons, h a]
    cases q a <;> simp [ih]

/-- The `ON CONFLICT` update arm of `knowledge_summarize_session` leaves a
row's `id` unchanged. -/
theorem summarizeUpd_id (sid s2 d2 fs2 : String) (s : Session) :
    ((if s.id == sid then
        { s with summary := some s2, key_decisions := some d2
                 files_modified := some fs2 }
      else s) : Session).id = s.id := by
  split <;> rfl

/-- The `ON CONFLICT` update arm leaves a row's `project_path` unchanged. -/
theorem summarizeUpd_project (sid s2 d2 fs2 : String) (s : Session) :
    ((if s.id == sid then
        { s with summary := some s2, key_decisions := some d2
                 files_modified := some fs2 }
      else s) : Session).project_path = s.project_path := by
  split <;> rfl

/-- After any `knowledge_summarize_session` call with ambient id `sid`, a row
with id `sid` exists (it was either updated in place or freshly inserted). -/
theorem summarize_row_exists (db : DB) (sid f1 p s1 d1 fs1 : String) (n1 : Nat) :
    ((knowledge_summarize_session db (some sid) f1 n1 p s1 d1 fs1).1).sessions.any
      (fun s => s.id == sid) = true := by
  unfold knowledge_summarize_session
  by_cases hc : db.sessions.any (fun s => s.id == sid) = true
  · simp only [Option.getD, hc, if_true]
    rw [List.any_map]
    rw [List.any_eq_true] at hc ⊢
    obtain ⟨x, hx, hid⟩ := hc
    exact ⟨x, hx, by simp [Function.comp, summarizeUpd_id, hid]⟩
  · simp only [Option.getD, hc, if_false, Bool.not_eq_true] at *
    simp [hc]

/-- C5: calling `summarizeSession` twice under the same ambient session id
upserts — the second call takes the `ON CONFLICT` update arm, so the number
of session rows in the project scope does not change, a row with the ambient
id exists, and every row with that id carries the second call's `summary`,
`key_decisions` and `files_modified`. -/
theorem C5_summarize_twice_upsert (db : DB) (sid f1 f2 p s1 d1 fs1 s2 d2 fs2 : String)
    (n1 n2 : Nat) :
    ((knowledge_summarize_session
        ((knowledge_summarize_session db (some sid) f1 n1 p s1 d1 fs1).1)
        ((knowledge_summarize_session db (some sid) f1 n1 p s1 d1 fs1).2.1)
        f2 n2 p s2 d2 fs2).1.sessions.filter
          (fun s => s.project_path == p)).length =
      (((knowledge_summarize_session db (some sid) f1 n1 p s1 d1 fs1).1).sessions.filter
          (fun s => s.project_path == p)).length ∧
    (∃ s ∈ (knowledge_summarize_session
        ((knowledge_summarize_session db (some sid) f1 n1 p s1 d1 fs1).1)
        ((knowledge_summarize_session db (some sid) f1 n1 p s1 d1 fs1).2.1)
        f2 n2 p s2 d2 fs2).1.sessions, s.id = sid) ∧
    (∀ s ∈ (knowledge_summarize_session
        ((knowledge_summarize_session db (some sid) f1 n1 p s1 d1 fs1).1)
        ((knowledge_summarize_session db (some sid) f1 n1 p s1 d1 fs1).2.1)
        f2 n2 p s2 d2 fs2).1.sessions, s.id = sid →
      s.summary = some s2 ∧ s.key_decisions = some d2 ∧
        s.files_modified = some fs2) := by
  have hcur : ((knowledge_summarize_session db (some sid) f1 n1 p s1 d1 fs1).2.1) =
      some sid := by
    unfold knowledge_summarize_session
    rfl
  rw [hcur]
  set db1 := (knowledge_summarize_session db (some sid) f1 n1 p s1 d1 fs1).1 with hdb1
  have hany : db1.sessions.any (fun s => s.id == sid) = true :=
    summarize_row_exists db sid f1 p s1 d1 fs1 n1
  have hsess : (knowledge_summarize_session db1 (some sid) f2 n2 p s2 d2 fs2).1.sessions =
      db1.sessions.map (fun s =>
        if s.id == sid then
          { s with summary := some s2, key_decisions := some d2
                   files_modified := some fs2 }
        else s) := by
    unfold knowledge_summarize_session
    simp only [Option.getD, hany, if_true]
  refine ⟨?_, ?_, ?_⟩
  · rw [hsess]
    exact filter_length_map_invariant _ _ _ fun a => by
      rw [summarizeUpd_project]
  · rw [hsess]
    rw [List.any_eq_true] at hany
    obtain ⟨x, hx, hid⟩ := hany
    refine ⟨_, List.mem_map_of_mem _ hx, ?_⟩
    rw [summarizeUpd_id]
    exact beq_iff_eq.mp hid
  · rw [hsess]
    intro s hs hid
    obtain ⟨x, hx, hxe⟩ := List.mem_map.mp hs
    by_cases hxid : (x.id == sid) = true
    · rw [← hxe]
      simp [hxid]
    · rw [← hxe] at hid
      rw [summarizeUpd_id] at hid
      exact absurd (beq_iff_eq.mpr hid) hxid

/-- A `filterMap` whose function succeeds on every element is a `map`. -/
theorem filterMap_map_of_forall_some {α β γ : Type} (l : List α) (f : α → Option β)
    (g : β → γ) (h : α → γ)
    (H : ∀ x ∈ l, ∃ y, f x = some y ∧ g y = h x) :
    (l.filterMap f).map g = l.map h := by
  induction l with
  | nil => rfl
  | cons a t ih =>
    obtain ⟨y, hy, hgy⟩ := H a (List.mem_cons_self a t)
    simp [List.filterMap_cons, hy, hgy,
      ih fun x hx => H x (List.mem_cons_of_mem a hx)]

/-- C9: the `entityType` filter of `exportGraph` restricts only the node
query; the edge list is computed from ALL relationships in the project scope
(joined to endpoint names) and is therefore identical for every filter —
whenever every relationship's endpoints exist as entities (the invariant
`connect` maintains), the edges are exactly the project's relationships. -/
theorem C9_graph_edges_ignore_filter (db : DB) (p : String) (tf : Option String)
    (hwf : ∀ r ∈ db.relationships,
      (∃ e ∈ db.entities, e.id = r.source_id) ∧
      (∃ e ∈ db.entities, e.id = r.target_id)) :
    (knowledge_graph db p tf).edges = (knowledge_graph db p none).edges ∧
    (knowledge_graph db p tf).edges.map GraphEdge.id =
      (db.relationships.filter fun r => r.project_path == p).map Relationship.id := by
  refine ⟨rfl, ?_⟩
  show ((db.relationships.filter fun r => r.project_path == p).filterMap _).map _ = _
  apply filterMap_map_of_forall_some
  intro r hr
  obtain ⟨⟨es, hes, hesid⟩, ⟨et, het, hetid⟩⟩ := hwf r (List.mem_filter.mp hr).1
  have hs : (findById db r.source_id).isSome := by
    rw [findById, List.find?_isSome]
    exact ⟨es, hes, by simp [hesid]⟩
  have ht : (findById db r.target_id).isSome := by
    rw [findById, List.find?_isSome]
    exact ⟨et, het, by simp [hetid]⟩
  obtain ⟨s', hs'⟩ := Option.isSome_iff_exists.mp hs
  obtain ⟨t', ht'⟩ := Option.isSome_iff_exists.mp ht
  exact ⟨_, by rw [hs', ht'], rfl⟩

/-- Two `component` entities joined by one relationship, for the C9 witness. -/
def cdb9 : DB :=
  { entities :=
      [{ id := "a", type := "component", name := "A", content := none
         metadata := none, project_path := "p", created_at := 1, updated_at := 1 },
       { id := "b", type := "component", name := "B", content := none
         metadata := none, project_path := "p", created_at := 1, updated_at := 1 }]
    relationships :=
      [{ id := "r-ab", source_id := "a", target_id := "b"
         relationship_type := "depends_on", metadata := none
         project_path := "p", created_at := 2 }]
    sessions := [] }

/-- Witness for C9 at a concrete input: filtering by `decision` removes every
node yet the edge between the two `component` entities is still returned. -/
theorem C9_graph_edges_ignore_filter_witness :
    (knowledge_graph cdb9 "p" (some "decision")).edges =
      (knowledge_graph cdb9 "p" none).edges ∧
    (knowledge_graph cdb9 "p" (some "decision")).edges.map GraphEdge.id = ["r-ab"] ∧
    (knowledge_graph cdb9 "p" (some "decision")).nodes = [] := by
  have h := C9_graph_edges_ignore_filter cdb9 "p" (some "decision") (by decide)
  refine ⟨h.1, ?_, rfl⟩
  rw [h.2]
  rfl

/-- One-step unfolding of `likeMatchF` at an empty pattern. -/
theorem likeMatchF_nil (n : Nat) (s : List Char) :
    likeMatchF (n + 1) [] s = s.isEmpty := rfl

/-- One-step unfolding of `likeMatchF` at a `%` wildcard. -/
theorem likeMatchF_pct (n : Nat) (ps s : List Char) :
    likeMatchF (n + 1) ('%' :: ps) s =
      (likeMatchF n ps s ||
        (match s with
         | [] => false
         | _ :: s' => likeMatchF n ('%' :: ps) s')) := rfl

/-- One-step unfolding of `likeMatchF`: non-`%` pattern head, empty subject. -/
theorem likeMatchF_ord_nil (n : Nat) (p : Char) (ps : List Char) (hp : p ≠ '%') :
    likeMatchF (n + 1) (p :: ps) [] = false := by
  rw [likeMatchF.eq_3, if_neg hp]

/-- One-step unfolding of `likeMatchF`: non-`%` pattern head, non-empty
subject. -/
theorem likeMatchF_ord_cons (n : Nat) (p : Char) (ps : List Char) (c : Char)
    (s' : List Char) (hp : p ≠ '%') :
    likeMatchF (n + 1) (p :: ps) (c :: s') =
      ((if p = '_' then true else asciiLower p == asciiLower c) &&
        likeMatchF n ps s') := by
  rw [likeMatchF.eq_4, if_neg hp]

/-- Adding fuel never turns a `LIKE` match off. -/
theorem likeMatchF_succ {fuel : Nat} {p s : List Char}
    (h : likeMatchF fuel p s = true) : likeMatchF (fuel + 1) p s = true := by
  induction fuel generalizing p s with
  | zero => simp [likeMatchF] at h
  | succ n ih =>
    match p with
    | [] =>
      rw [likeMatchF_nil] at h ⊢
      exact h
    | p₀ :: ps =>
      by_cases hp : p₀ = '%'
      · subst hp
        rw [likeMatchF_pct, Bool.or_eq_true] at h ⊢
        rcases h with h1 | h2
        · exact Or.inl (ih h1)
        · match s with
          | [] => simp at h2
          | c :: s' => exact Or.inr (ih h2)
      · match s with
        | [] =>
          rw [likeMatchF_ord_nil _ _ _ hp] at h
          exact absurd h (by simp)
        | c :: s' =>
          rw [likeMatchF_ord_cons _ _ _ _ _ hp] at h ⊢
          rw [Bool.and_eq_true] at h ⊢
          exact ⟨h.1, ih h.2⟩

/-- A leading `%` wildcard matches by dropping some characters of the
subject and matching the rest of the pattern. -/
theorem likeMatchF_percent {fuel : Nat} {ps s : List Char}
    (h : likeMatchF fuel ('%' :: ps) s = true) :
    ∃ n, likeMatchF fuel ps (s.drop n) = true := by
  induction fuel generalizing s with
  | zero => simp [likeMatchF] at h
  | succ n ih =>
    rw [likeMatchF_pct, Bool.or_eq_true] at h
    rcases h with h1 | h2
    · exact ⟨0, likeMatchF_succ h1⟩
    · match s with
      | [] => simp at h2
      | c :: s' =>
        obtain ⟨m, hm⟩ := ih h2
        exact ⟨m + 1, likeMatchF_succ hm⟩

/-- A wildcard-free pattern followed by `%` matches exactly when the subject
leads with the pattern, ASCII-case-insensitively. -/
theorem likeMatchF_noWc {q : List Char} :
    ∀ {fuel : Nat} {s : List Char},
    (∀ c ∈ q, c ≠ '%' ∧ c ≠ '_') →
    likeMatchF fuel (q ++ ['%']) s = true →
    leadsWith (q.map asciiLower) (s.map asciiLower) = true := by
  induction q with
  | nil => intro fuel s _ _; rfl
  | cons c q ih =>
    intro fuel s hq h
    obtain ⟨hc1, hc2⟩ := hq c (List.mem_cons_self c q)
    match fuel with
    | 0 => simp [likeMatchF] at h
    | n + 1 =>
      rw [List.cons_append] at h
      match s with
      | [] =>
        rw [likeMatchF_ord_nil _ _ _ hc1] at h
        exact absurd h (by simp)
      | d :: s' =>
        rw [likeMatchF_ord_cons _ _ _ _ _ hc1] at h
        rw [Bool.and_eq_true] at h
        obtain ⟨h1, h2⟩ := h
        rw [if_neg hc2] at h1
        simp only [List.map_cons, leadsWith]
        rw [Bool.and_eq_true]
        exact ⟨h1, ih (fun x hx => hq x (List.mem_cons_of_mem c hx)) h2⟩

/-- Leading with `q` after dropping a prefix means containing `q`. -/
theorem leadsWith_drop_hasSub {q : List Char} :
    ∀ (n : Nat) (s : List Char),
    leadsWith q (s.drop n) = true → hasSub q s = true := by
  intro n
  induction n with
  | zero =>
    intro s h
    cases s with
    | nil => simpa [hasSub] using h
    | cons c s' =>
      rw [List.drop_zero] at h
      simp [hasSub, h]
  | succ m ih =>
    intro s h
    cases s with
    | nil => simpa [hasSub] using h
    | cons c s' =>
      have := ih s' (by simpa using h)
      simp [hasSub, this]

/-- The bridge: for a wildcard-free query, a successful SQL
`LIKE '%query%'` match means the query is an ASCII-case-insensitive
substring of the subject. -/
theorem likeMatch_substring {q s : String} (hq : wcFree q = true)
    (h : likeMatch ("%" ++ q ++ "%").data s.data = true) :
    ciSubstr q s = true := by
  have hd : ("%" ++ q ++ "%").data = '%' :: (q.data ++ ['%']) := by
    simp [String.data_append]
  rw [likeMatch, hd] at h
  obtain ⟨n, hn⟩ := likeMatchF_percent h
  have hq' : ∀ c ∈ q.data, c ≠ '%' ∧ c ≠ '_' := by
    intro c hc
    have h2 := List.all_eq_true.mp hq c hc
    rw [Bool.and_eq_true] at h2
    exact ⟨by simpa using h2.1, by simpa using h2.2⟩
  have hl := likeMatchF_noWc hq' hn
  rw [ciSubstr]
  rw [List.map_drop] at hl
  exact leadsWith_drop_hasSub n _ hl

/-- One entity named `abc` with `NULL` content, for the C8 counterexample. -/
def cdb8 : DB :=
  { entities :=
      [{ id := "e-8", type := "file", name := "abc", content := none
         metadata := none, project_path := "p", created_at := 3, updated_at := 3 }]
    relationships := [], sessions := [] }

/-- C8 counterexample: searching for `a_c` returns the entity named `abc`
(the `_` in the query acts as a SQL `LIKE` single-character wildcard), yet
`a_c` is not a case-insensitive substring of `abc` and the entity's content
is `NULL` — so a returned result need not contain the query as a substring
of name or content. -/
theorem C8_search_wildcard_cex :
    (knowledge_search cdb8 "p" "a_c" none 10).results.map SearchRow.name = ["abc"] ∧
    ciSubstr "a_c" "abc" = false ∧
    (knowledge_search cdb8 "p" "a_c" none 10).results.map SearchRow.content = [none] :=
  ⟨rfl, rfl, rfl⟩

/-- C8 (amended): for a query free of the SQL `LIKE` wildcard characters `%`
and `_`, every `knowledge_search` call returns at most `limit` results,
ordered by `updated_at` descending, each corresponding to an entity of the
project scope that contains the query as an ASCII-case-insensitive substring
of its name or content, matching the type filter exactly when one is given,
with the returned content truncated to at most 500 characters. -/
theorem C8_search_results_spec (db : DB) (p q : String) (tf : Option String)
    (limit : Nat) (hq : wcFree q = true) :
    (knowledge_search db p q tf limit).results.length ≤ limit ∧
    List.Sorted (fun a b : SearchRow => b.updated ≤ a.updated)
      (knowledge_search db p q tf limit).results ∧
    ∀ row ∈ (knowledge_search db p q tf limit).results,
      ∃ e ∈ db.entities, e.project_path = p ∧
        row.id = e.id ∧ row.type = e.type ∧ row.name = e.name ∧
        row.updated = e.updated_at ∧
        row.content = e.content.map (fun c => (⟨c.data.take 500⟩ : String)) ∧
        (∀ c, row.content = some c → c.length ≤ 500) ∧
        (ciSubstr q e.name = true ∨
          ∃ c, e.content = some c ∧ ciSubstr q c = true) ∧
        (∀ t, tf = some t → e.type = t) := by
  refine ⟨?_, ?_, ?_⟩
  · show (((List.insertionSort entityUpdGe
      (db.entities.filter (searchPred p q tf))).take limit).map _).length ≤ limit
    rw [List.length_map, List.length_take]
    exact min_le_left _ _
  · show List.Sorted _ (((List.insertionSort entityUpdGe
      (db.entities.filter (searchPred p q tf))).take limit).map _)
    apply List.pairwise_map.mpr
    exact ((List.sorted_insertionSort entityUpdGe _).sublist
      (List.take_sublist _ _)).imp fun h => h
  · intro row hrow
    obtain ⟨r, hr, hrw⟩ := List.mem_map.mp hrow
    have hr1 : r ∈ List.insertionSort entityUpdGe
        (db.entities.filter (searchPred p q tf)) := List.mem_of_mem_take hr
    have hr2 : r ∈ db.entities.filter (searchPred p q tf) :=
      (List.perm_insertionSort entityUpdGe _).mem_iff.mp hr1
    obtain ⟨hre, hpred⟩ := List.mem_filter.mp hr2
    rw [searchPred.eq_def, Bool.and_eq_true, Bool.and_eq_true] at hpred
    obtain ⟨⟨hpp, hmatch⟩, hty⟩ := hpred
    refine ⟨r, hre, beq_iff_eq.mp hpp, ?_, ?_, ?_, ?_, ?_, ?_, ?_, ?_⟩
    · rw [← hrw]
    · rw [← hrw]
    · rw [← hrw]
    · rw [← hrw]
    · rw [← hrw]
    · intro c hc
      rw [← hrw] at hc
      obtain ⟨c0, _, hfc⟩ := Option.map_eq_some'.mp hc
      rw [← hfc]
      show (c0.data.take 500).length ≤ 500
      rw [List.length_take]
      exact min_le_left _ _
    · rw [Bool.or_eq_true] at hmatch
      rcases hmatch with hnm | hct
      · exact Or.inl (likeMatch_substring hq hnm)
      · match hcont : r.content with
        | none => rw [hcont] at hct; simp at hct
        | some c0 =>
          rw [hcont] at hct
          exact Or.inr ⟨c0, rfl, likeMatch_substring hq hct⟩
    · intro t htf
      rw [htf] at hty
      exact beq_iff_eq.mp hty

/-- Witness for C8 (amended) at a concrete input: the wildcard-free query
`abc` against the store `cdb8`. -/
theorem C8_search_results_spec_witness :
    wcFree "abc" = true ∧
    ((knowledge_search cdb8 "p" "abc" none 10).results.length ≤ 10 ∧
     List.Sorted (fun a b : SearchRow => b.updated ≤ a.updated)
       (knowledge_search cdb8 "p" "abc" none 10).results ∧
     ∀ row ∈ (knowledge_search cdb8 "p" "abc" none 10).results,
       ∃ e ∈ cdb8.entities, e.project_path = "p" ∧
         row.id = e.id ∧ row.type = e.type ∧ row.name = e.name ∧
         row.updated = e.updated_at ∧
         row.content = e.content.map (fun c => (⟨c.data.take 500⟩ : String)) ∧
         (∀ c, row.content = some c → c.length ≤ 500) ∧
         (ciSubstr "abc" e.name = true ∨
           ∃ c, e.content = some c ∧ ciSubstr "abc" c = true) ∧
         (∀ t, (none : Option String) = some t → e.type = t)) :=
  ⟨rfl, C8_search_results_spec cdb8 "p" "abc" none 10 rfl⟩

/-- `Array.prototype.map` over a throwing callback: if the callback throws on
any element of the list, the whole map throws. -/
theorem mapE_error_of_mem {α β : Type} {l : List α} {f : α → Except String β}
    {a : α} (ha : a ∈ l) {e : String} (hfa : f a = .error e) :
    ∃ e', mapE l f = .error e' := by
  induction l with
  | nil => simp at ha
  | cons x t ih =>
    rcases List.mem_cons.mp ha with rfl | hat
    · exact ⟨e, by simp only [mapE]; rw [hfa]⟩
    · match hfx : f x with
      | .error e'' => exact ⟨e'', by simp only [mapE]; rw [hfx]⟩
      | .ok b =>
        obtain ⟨e', he'⟩ := ih hat
        refine ⟨e', ?_⟩
        simp only [mapE]
        rw [hfx, he']

/-- C10 (amended): `summarizeSession` stores the caller's files string
verbatim, and `listSessions` runs an unguarded `JSON.parse` over each row it
returns — so whenever a session row inside the returned window (the `limit`
most recent sessions of the project) carries a non-empty `files_modified`
string that is not valid JSON, the whole `listSessions` call throws instead
of returning a payload.  Rows outside the window are never parsed. -/
theorem C10_sessions_bad_json_errors (db : DB) (p : String) (limit : Nat) (f : String)
    (h : ∃ s ∈ sessionsWindow db p limit,
      s.files_modified = some f ∧ f ≠ "" ∧ jsonParse f = none) :
    ∃ e, knowledge_sessions db p limit = .error e := by
  obtain ⟨s, hs, hf, hne, hp⟩ := h
  have hrow : sessionRowOf s = .error "SyntaxError: Unexpected token in JSON" := by
    simp only [sessionRowOf.eq_def, hf]
    rw [if_neg hne, hp]
  obtain ⟨e', he'⟩ := mapE_error_of_mem hs hrow
  exact ⟨e', by rw [knowledge_sessions.eq_def, he']⟩

/-- A session whose `files_modified` column is valid JSON. -/
def sGood : Session :=
  { id := "s2", project_path := "p", start_time := 2, end_time := none
    summary := some "second", key_decisions := none
    files_modified := some "[]", context := none }

/-- A session whose `files_modified` column is NOT valid JSON. -/
def sBad : Session :=
  { id := "s1", project_path := "p", start_time := 1, end_time := none
    summary := some "first", key_decisions := none
    files_modified := some "not json", context := none }

/-- A store whose project scope holds one bad-JSON session and one newer
good one. -/
def cdb10 : DB := { entities := [], relationships := [], sessions := [sBad, sGood] }

/-- C10 counterexample: `s1` holds the invalid files string `not json`, yet
`listSessions(limit := 1)` succeeds — the `LIMIT` window contains only the
newer session `s2`, so the bad row is never parsed and the call returns a
payload.  Hence not EVERY subsequent `listSessions` call for the project
raises. -/
theorem C10_sessions_limit_window_cex :
    jsonParse "not json" = none ∧
    (∃ s ∈ cdb10.sessions, s.files_modified = some "not json") ∧
    knowledge_sessions cdb10 "p" 1 =
      .ok { count := 1
            sessions := [{ id := "s2", startTime := 2, endTime := none
                           summary := some "second", keyDecisions := none
                           filesModified := .arr [] }] } :=
  ⟨rfl, ⟨sBad, List.mem_cons_self _ _, rfl⟩, rfl⟩

/-- Witness for C10 (amended) at a concrete input: with the default limit 10
the bad row is inside the window and the call throws. -/
theorem C10_sessions_bad_json_errors_witness :
    ∃ e, knowledge_sessions cdb10 "p" 10 = .error e :=
  C10_sessions_bad_json_errors cdb10 "p" 10 "not json"
    ⟨sBad, by decide, rfl, by decide, rfl⟩

/-! ## C6 infrastructure: round-tripping the session `context` blob -/

/-- A character that `JSON.stringify` emits verbatim inside a string literal
(no quote, no backslash, no control character). -/
def plainChar (c : Char) : Prop := c ≠ '"' ∧ c ≠ '\\' ∧ 32 ≤ c.toNat

instance : DecidablePred plainChar := fun c =>
  decidable_of_iff (c ≠ '"' ∧ c ≠ '\\' ∧ 32 ≤ c.toNat) Iff.rfl

/-- A string all of whose characters are plain. -/
def plainStr (s : String) : Prop := ∀ c ∈ s.data, plainChar c

instance : DecidablePred plainStr := fun s =>
  List.decidableBAll plainChar s.data

/-- `JSON.stringify` escaping leaves a plain character untouched. -/
theorem escChar_plain {c : Char} (h : plainChar c) : escChar c = [c] := by
  obtain ⟨h1, h2, h3⟩ := h
  have hlow : ∀ d : Char, d.toNat < 32 → c ≠ d := by
    intro d hd he
    rw [he] at h3
    omega
  have e1 : (c == '"') = false := by simpa using h1
  have e2 : (c == '\\') = false := by simpa using h2
  have e3 : (c == '\n') = false := by simpa using hlow '\n' (by decide)
  have e4 : (c == '\r') = false := by simpa using hlow '\r' (by decide)
  have e5 : (c == '\t') = false := by simpa using hlow '\t' (by decide)
  have e6 : (c == '\x08') = false := by simpa using hlow '\x08' (by decide)
  have e7 : (c == '\x0c') = false := by simpa using hlow '\x0c' (by decide)
  have e8 : ¬ (c.toNat < 32) := by omega
  simp [escChar, e1, e2, e3, e4, e5, e6, e7, e8]

/-- `JSON.stringify` escaping is the identity on plain strings. -/
theorem jsonEscape_plain (s : String) (h : plainStr s) : jsonEscape s = s := by
  have : ∀ l : List Char, (∀ c ∈ l, plainChar c) → (l.map escChar).flatten = l := by
    intro l
    induction l with
    | nil => intro _; rfl
    | cons c t ih =>
      intro hl
      rw [List.map_cons, List.flatten_cons,
        escChar_plain (hl c (List.mem_cons_self c t)),
        ih fun x hx => hl x (List.mem_cons_of_mem c hx)]
      rfl
  show String.mk ((s.data.map escChar).flatten) = s
  rw [this s.data h]

/-- `skipWS` does not move past a non-whitespace head. -/
theorem skipWS_cons_of {c : Char} (l : List Char) (h : isWS c = false) :
    skipWS (c :: l) = c :: l := by
  simp [skipWS, List.dropWhile_cons, h]

/-- Parsing the body of a JSON string literal made of plain characters stops
exactly at the closing quote. -/
theorem parseStrChars_plain (cs : List Char) :
    ∀ (fuel : Nat) (rest : List Char), (∀ c ∈ cs, plainChar c) →
    cs.length < fuel →
    parseStrChars fuel (cs ++ '"' :: rest) = some (cs, rest) := by
  induction cs with
  | nil =>
    intro fuel rest _ hf
    obtain ⟨n, rfl⟩ : ∃ n, fuel = n + 1 := ⟨fuel - 1, by omega⟩
    rfl
  | cons c cs ih =>
    intro fuel rest hp hf
    obtain ⟨n, rfl⟩ : ∃ n, fuel = n + 1 := ⟨fuel - 1, by omega⟩
    obtain ⟨h1, h2, h3⟩ := hp c (List.mem_cons_self c cs)
    have e1 : (c == '"') = false := by simpa using h1
    have e2 : (c == '\\') = false := by simpa using h2
    have e3 : ¬ (c.toNat < 32) := by omega
    rw [List.cons_append]
    simp only [parseStrChars, e1, e2, e3, Bool.false_eq_true, if_false]
    rw [ih n rest (fun x hx => hp x (List.mem_cons_of_mem c hx))
      (by simp at hf; omega)]

/-- One step of `parseValue` at a string literal. -/
theorem parseValue_str (m : Nat) (sc rest : List Char)
    (hsc : ∀ c ∈ sc, plainChar c) :
    parseValue (m + 1) ('"' :: (sc ++ '"' :: rest)) =
      some (Json.str ⟨sc⟩, rest) := by
  have h0 : parseValue (m + 1) ('"' :: (sc ++ '"' :: rest)) =
      (match parseStrChars ((sc ++ '"' :: rest).length + 1) (sc ++ '"' :: rest) with
       | some (cs, r) => some (Json.str ⟨cs⟩, r)
       | none => none) := rfl
  rw [h0, parseStrChars_plain sc _ _ hsc (by simp; omega)]

/-- One step of `parseValue` at an object opener whose first member starts
immediately with a quoted key. -/
theorem parseValue_obj (g : Nat) (T : List Char) :
    parseValue (g + 1) ('\x7b' :: '"' :: T) =
      (match parseMembers g ('"' :: T) with
       | some (ms, r2) => some (Json.obj ms, r2)
       | none => none) := rfl

/-- One step of `parseMembers` when the input starts with a quoted key. -/
theorem parseMembers_step (m : Nat) (R : List Char) :
    parseMembers (m + 1) ('"' :: R) =
      (match parseStrChars (R.length + 1) R with
       | none => none
       | some (key, r1) =>
         match skipWS r1 with
         | ':' :: r2 =>
           match parseValue m (skipWS r2) with
           | none => none
           | some (v, r3) =>
             match skipWS r3 with
             | ',' :: r4 =>
               match parseMembers m r4 with
               | some (ms, r5) => some ((⟨key⟩, v) :: ms, r5)
               | none => none
             | '\x7d' :: r4 => some ([(⟨key⟩, v)], r4)
             | _ => none
         | _ => none) := rfl

/-- Parsing a single-member object body `"k":"sc"}rest`. -/
theorem parseMembers_single (g : Nat) (k sc rest : List Char)
    (hk : ∀ c ∈ k, plainChar c) (hsc : ∀ c ∈ sc, plainChar c) :
    parseMembers (g + 2)
      ('"' :: (k ++ '"' :: ':' :: '"' :: (sc ++ '"' :: '\x7d' :: rest))) =
      some ([(⟨k⟩, Json.str ⟨sc⟩)], rest) := by
  rw [show g + 2 = (g + 1) + 1 from rfl, parseMembers_step (g + 1)]
  rw [parseStrChars_plain k _ _ hk (by simp; omega)]
  simp only []
  rw [skipWS_cons_of _ (by decide)]
  simp only []
  rw [skipWS_cons_of _ (by decide)]
  rw [parseValue_str g sc _ hsc]
  simp only []
  rw [skipWS_cons_of _ (by decide)]
  rfl

/-- Parsing a two-member object body `"k1":"s1","k2":"s2"}rest`. -/
theorem parseMembers_pair (g : Nat) (k1 s1 k2 s2 rest : List Char)
    (hk1 : ∀ c ∈ k1, plainChar c) (hs1 : ∀ c ∈ s1, plainChar c)
    (hk2 : ∀ c ∈ k2, plainChar c) (hs2 : ∀ c ∈ s2, plainChar c) :
    parseMembers (g + 3)
      ('"' :: (k1 ++ '"' :: ':' :: '"' :: (s1 ++ '"' :: ',' :: '"' ::
        (k2 ++ '"' :: ':' :: '"' :: (s2 ++ '"' :: '\x7d' :: rest))))) =
      some ([(⟨k1⟩, Json.str ⟨s1⟩), (⟨k2⟩, Json.str ⟨s2⟩)], rest) := by
  rw [show g + 3 = (g + 2) + 1 from rfl, parseMembers_step (g + 2)]
  rw [parseStrChars_plain k1 _ _ hk1 (by simp; omega)]
  simp only []
  rw [skipWS_cons_of _ (by decide)]
  simp only []
  rw [skipWS_cons_of _ (by decide)]
  rw [show g + 2 = (g + 1) + 1 from rfl, parseValue_str (g + 1) s1 _ hs1]
  simp only []
  rw [skipWS_cons_of _ (by decide)]
  simp only []
  rw [parseMembers_single g k2 s2 rest hk2 hs2]

/-- The character data of the serialized session context blob, for plain
summary and decisions strings. -/
theorem contextJson_data (s d : String) (hs : plainStr s) (hd : plainStr d) :
    (contextJson s d).data =
      '\x7b' :: '"' :: ("summary".data ++ '"' :: ':' :: '"' ::
        (s.data ++ '"' :: ',' :: '"' ::
          ("decisions".data ++ '"' :: ':' :: '"' ::
            (d.data ++ '"' :: '\x7d' :: [])))) := by
  unfold contextJson
  rw [jsonEscape_plain s hs, jsonEscape_plain d hd]
  simp only [String.data_append, List.append_assoc]
  rfl

/-- The length of the serialized session context blob. -/
theorem contextJson_length (s d : String) (hs : plainStr s) (hd : plainStr d) :
    (contextJson s d).length = (26 + s.length + d.length) + 3 := by
  show (contextJson s d).data.length = _
  rw [contextJson_data s d hs hd]
  simp [List.length_append]
  omega

/-- Round trip: `JSON.parse` recovers exactly the summary/decisions object
that `knowledge_summarize_session` serialized, for plain strings. -/
theorem jsonParse_contextJson (s d : String) (hs : plainStr s) (hd : plainStr d) :
    jsonParse (contextJson s d) =
      some (Json.obj [("summary", Json.str s), ("decisions", Json.str d)]) := by
  unfold jsonParse
  rw [contextJson_length s d hs hd, contextJson_data s d hs hd]
  rw [skipWS_cons_of _ (by decide)]
  rw [parseValue_obj]
  rw [parseMembers_pair (26 + s.length + d.length) ("summary".data) s.data
    ("decisions".data) d.data [] (by decide) hs (by decide) hd]
  rfl

/-- Mapping an id-conditional update over rows none of which carry the id is
the identity. -/
theorem map_cond_id (g : Session → Session) (sid : String) (l : List Session)
    (hne : ∀ s ∈ l, s.id ≠ sid) :
    (l.map fun s => if s.id == sid then g s else s) = l := by
  induction l with
  | nil => rfl
  | cons a t ih =>
    have ha : (a.id == sid) = false := by
      simpa using hne a (List.mem_cons_self a t)
    simp only [List.map_cons, ha, Bool.false_eq_true, if_false]
    rw [ih fun x hx => hne x (List.mem_cons_of_mem a hx)]

/-- `find?` skips a block on which the predicate is everywhere false. -/
theorem find?_append_of_none {p : Session → Bool} {l1 l2 : List Session}
    (h : ∀ x ∈ l1, p x = false) : (l1 ++ l2).find? p = l2.find? p := by
  rw [List.find?_append, List.find?_eq_none.mpr fun x hx => by simp [h x hx]]
  rfl

/-- The insert arm of `knowledge_summarize_session` (no conflicting row). -/
theorem summarize_insert_sessions (db : DB) (sid f : String) (now : Nat)
    (p s d fs : String)
    (hany : db.sessions.any (fun x => x.id == sid) = false) :
    (knowledge_summarize_session db (some sid) f now p s d fs).1.sessions =
      db.sessions ++
        [{ id := sid, project_path := p, start_time := now, end_time := none
           summary := some s, key_decisions := some d, files_modified := some fs
           context := some (contextJson s d) }] := by
  unfold knowledge_summarize_session
  simp only [Option.getD_some, hany, Bool.false_eq_true, if_false]

/-- The `ON CONFLICT` update arm of `knowledge_summarize_session`. -/
theorem summarize_update_sessions (db : DB) (sid f : String) (now : Nat)
    (p s d fs : String)
    (hany : db.sessions.any (fun x => x.id == sid) = true) :
    (knowledge_summarize_session db (some sid) f now p s d fs).1.sessions =
      db.sessions.map fun x =>
        if x.id == sid then
          { x with summary := some s, key_decisions := some d
                   files_modified := some fs }
        else x := by
  unfold knowledge_summarize_session
  simp only [Option.getD_some, hany, if_true]

/-- The `session.deleted` output when the stamped current row is found and
carries a non-empty context that parses to a JSON object. -/
theorem sessionDeleted_out (db : DB) (sid : String) (n3 : Nat) (r : Session)
    (hfind : (db.sessions.map fun s =>
        if s.id == sid then { s with end_time := some n3 } else s).find?
        (fun s => s.id == sid) = some r)
    (ctx : String) (hctx : r.context = some ctx) (hne : ctx ≠ "")
    (fields : List (String × Json)) (hv : jsonParse ctx = some (Json.obj fields)) :
    (sessionDeleted db (some sid) n3).2 =
      some { summary := jsGet (Json.obj fields) "summary"
             decisions := jsGet (Json.obj fields) "decisions" } := by
  unfold sessionDeleted
  simp only []
  rw [hfind]
  simp only []
  rw [hctx]
  simp only []
  rw [if_neg hne, hv]

/-- C6: the `ON CONFLICT` arm of `summarizeSession` does not touch the
`context` column — after a second call under the same ambient session id the
row's context still serializes the FIRST call's summary and decisions, and
the `session.deleted` handler therefore surfaces the first call's values
rather than the latest ones.  (Stated for summary/decisions strings made of
plain characters, where `JSON.stringify` escapes nothing.) -/
theorem C6_summarize_conflict_keeps_context (db : DB)
    (sid f1 f2 p s1 d1 fs1 s2 d2 fs2 : String) (n1 n2 n3 : Nat)
    (hfresh : ∀ s ∈ db.sessions, s.id ≠ sid)
    (hs1 : plainStr s1) (hd1 : plainStr d1) :
    (∀ s ∈ (knowledge_summarize_session
        ((knowledge_summarize_session db (some sid) f1 n1 p s1 d1 fs1).1)
        ((knowledge_summarize_session db (some sid) f1 n1 p s1 d1 fs1).2.1)
        f2 n2 p s2 d2 fs2).1.sessions,
      s.id = sid → s.context = some (contextJson s1 d1)) ∧
    (sessionDeleted
        (knowledge_summarize_session
          ((knowledge_summarize_session db (some sid) f1 n1 p s1 d1 fs1).1)
          ((knowledge_summarize_session db (some sid) f1 n1 p s1 d1 fs1).2.1)
          f2 n2 p s2 d2 fs2).1
        (knowledge_summarize_session
          ((knowledge_summarize_session db (some sid) f1 n1 p s1 d1 fs1).1)
          ((knowledge_summarize_session db (some sid) f1 n1 p s1 d1 fs1).2.1)
          f2 n2 p s2 d2 fs2).2.1
        n3).2 =
      some { summary := some (Json.str s1), decisions := some (Json.str d1) } := by
  have hcur : (knowledge_summarize_session db (some sid) f1 n1 p s1 d1 fs1).2.1 =
      some sid := rfl
  rw [hcur]
  have hany0 : db.sessions.any (fun x => x.id == sid) = false := by
    rw [List.any_eq_false]
    intro s hs
    simpa using hfresh s hs
  have e1 := summarize_insert_sessions db sid f1 n1 p s1 d1 fs1 hany0
  have hany1 : ((knowledge_summarize_session db (some sid) f1 n1 p s1 d1 fs1).1).sessions.any
      (fun x => x.id == sid) = true := by
    rw [e1, List.any_append]
    simp
  have e2 : (knowledge_summarize_session
      ((knowledge_summarize_session db (some sid) f1 n1 p s1 d1 fs1).1)
      (some sid) f2 n2 p s2 d2 fs2).1.sessions =
      db.sessions ++
        [{ id := sid, project_path := p, start_time := n1, end_time := none
           summary := some s2, key_decisions := some d2
           files_modified := some fs2
           context := some (contextJson s1 d1) }] := by
    rw [summarize_update_sessions _ sid f2 n2 p s2 d2 fs2 hany1, e1,
      List.map_append, map_cond_id _ sid db.sessions hfresh]
    simp
  have hcur2 : (knowledge_summarize_session
      ((knowledge_summarize_session db (some sid) f1 n1 p s1 d1 fs1).1)
      (some sid) f2 n2 p s2 d2 fs2).2.1 = some sid := rfl
  rw [hcur2]
  constructor
  · intro s hs hid
    rw [e2] at hs
    rcases List.mem_append.mp hs with hl | hr
    · exact absurd hid (hfresh s hl)
    · rw [List.mem_singleton.mp hr]
  · refine sessionDeleted_out _ sid n3
      { id := sid, project_path := p, start_time := n1, end_time := some n3
        summary := some s2, key_decisions := some d2, files_modified := some fs2
        context := some (contextJson s1 d1) }
      ?_ (contextJson s1 d1) rfl ?_
      [("summary", Json.str s1), ("decisions", Json.str d1)]
      (jsonParse_contextJson s1 d1 hs1 hd1)
    · rw [e2, List.map_append, map_cond_id _ sid db.sessions hfresh]
      rw [find?_append_of_none fun x hx => by simpa using hfresh x hx]
      simp
    · intro h
      have hdat := congrArg String.data h
      rw [contextJson_data s1 d1 hs1 hd1] at hdat
      simp at hdat

/-- Witness for C6 at a concrete input: two summarize calls under the ambient
id `sess-1`; the deleted-session output surfaces the first call's summary and
decisions. -/
theorem C6_summarize_conflict_keeps_context_witness :
    (∀ s ∈ (knowledge_summarize_session
        ((knowledge_summarize_session db0 (some "sess-1") "f1" 1 "p"
          "did work" "use sqlite" "[]").1)
        ((knowledge_summarize_session db0 (some "sess-1") "f1" 1 "p"
          "did work" "use sqlite" "[]").2.1)
        "f2" 2 "p" "more work" "switch db" "[]").1.sessions,
      s.id = "sess-1" → s.context = some (contextJson "did work" "use sqlite")) ∧
    (sessionDeleted
        (knowledge_summarize_session
          ((knowledge_summarize_session db0 (some "sess-1") "f1" 1 "p"
            "did work" "use sqlite" "[]").1)
          ((knowledge_summarize_session db0 (some "sess-1") "f1" 1 "p"
            "did work" "use sqlite" "[]").2.1)
          "f2" 2 "p" "more work" "switch db" "[]").1
        (knowledge_summarize_session
          ((knowledge_summarize_session db0 (some "sess-1") "f1" 1 "p"
            "did work" "use sqlite" "[]").1)
          ((knowledge_summarize_session db0 (some "sess-1") "f1" 1 "p"
            "did work" "use sqlite" "[]").2.1)
          "f2" 2 "p" "more work" "switch db" "[]").2.1
        3).2 =
      some { summary := some (Json.str "did work")
             decisions := some (Json.str "use sqlite") } :=
  C6_summarize_conflict_keeps_context db0 "sess-1" "f1" "f2" "p"
    "did work" "use sqlite" "[]" "more work" "switch db" "[]" 1 2 3
    (by simp [db0]) (by decide) (by decide)

end KG
